import Mathlib

/-!
Shallow embedding of the mongoose schema layer of `crud-backend-practice-js`
(models `Review`, `Category`, `Post`, `Tag`, `Order`), centred on the
`pre('save')` middleware of each schema and the schema-level validation that
mongoose runs before those hooks.

Modelling conventions:
* JS strings are Lean `String`s (operated on through their character lists);
  ObjectIds are `Nat`; JS numbers that only ever hold integers are `Int`
  (or `Nat` where the source value is an array length).
* A mongoose document is a structure holding the fields the verified claims
  touch; fields of the schemas that no hook nor claim mentions (SEO blocks,
  media, moderation metadata, ...) are omitted from the structures.
* `doc.save()` runs validation first and the user `pre('save')` hook second;
  we model it as `validate` followed by the pure hook function.
* `this.isModified('f')` is an input flag of the hook function, and
  `Date.now()` / `Math.random()` are explicit parameters.
* An absent (`undefined`) optional field is `Option.none`; for string fields
  with falsy checks (`!this.slug`) the unset value is `""`, matching the JS
  code which treats `undefined` and `""` alike there.
-/

/-- JS whitespace characters recognised by the regex `\s` (ASCII part plus the
common Unicode members; the source strings of interest are ASCII). -/
def jsWs (c : Char) : Bool :=
  c = ' ' || c = '\t' || c = '\n' || c = '\r' || c = '\x0b' || c = '\x0c' ||
  c = '\u00A0' || c = '\u2028' || c = '\u2029' || c = '\uFEFF'

/-- Characters kept verbatim by the slug regex `[^a-z0-9]+`: lowercase ASCII
letters (code points 97-122) and digits (48-57). -/
def isAlnum (c : Char) : Bool :=
  (97 ≤ c.toNat && c.toNat ≤ 122) || (48 ≤ c.toNat && c.toNat ≤ 57)

/-- `String.prototype.toLowerCase`, restricted to its ASCII action: uppercase
letters A-Z (65-90) shift by 32, all other characters are unchanged. -/
def jsToLower (c : Char) : Char :=
  if 65 ≤ c.toNat && c.toNat ≤ 90 then Char.ofNat (c.toNat + 32) else c

/-- Worker for `.replace(/[^a-z0-9]+/g, '-')`: `inRun` records whether the
previous character belonged to a non-alphanumeric run (whose single `'-'` has
already been emitted). -/
def replaceRunsAux : Bool → List Char → List Char
  | _, [] => []
  | inRun, c :: cs =>
    if isAlnum c then c :: replaceRunsAux false cs
    else if inRun then replaceRunsAux true cs
    else '-' :: replaceRunsAux true cs

/-- `.replace(/[^a-z0-9]+/g, '-')` on a character list: each maximal run of
non-alphanumeric characters becomes a single `'-'`. -/
def replaceRuns (l : List Char) : List Char := replaceRunsAux false l

/-- The `^-` alternative of `.replace(/(^-|-$)/g, '')`: remove one leading
hyphen. -/
def stripLeadHyphen (l : List Char) : List Char :=
  match l with
  | c :: t => if c = '-' then t else c :: t
  | [] => []

/-- The `-$` alternative of `.replace(/(^-|-$)/g, '')`: remove one trailing
hyphen. -/
def stripTrailHyphen (l : List Char) : List Char :=
  if l.getLast? = some '-' then l.dropLast else l

/-- `.replace(/(^-|-$)/g, '')`: the anchored alternatives match at most once
each, so exactly one leading and one trailing hyphen are removed. -/
def stripEdgeHyphens (l : List Char) : List Char :=
  stripTrailHyphen (stripLeadHyphen l)

/-- The slug pipeline shared verbatim by `Tag.js`, `Category.js` and
`Post.js`: `text.toLowerCase().replace(/[^a-z0-9]+/g, '-').replace(/(^-|-$)/g, '')`. -/
def slugifyL (l : List Char) : List Char :=
  stripEdgeHyphens (replaceRuns (l.map jsToLower))

/-- String-level slugify. -/
def slugify (s : String) : String :=
  String.mk (slugifyL s.toList)

/-- `str.split(/\s+/)` on a character list: fields between maximal whitespace
runs; a leading run contributes an empty first field and a trailing run an
empty last field, and the empty string yields `[[]]`, as in JS. -/
def splitWsL : List Char → List (List Char)
  | [] => [[]]
  | c :: cs =>
    if jsWs c then
      match cs with
      | [] => [] :: splitWsL cs
      | d :: _ => if jsWs d then splitWsL cs else [] :: splitWsL cs
    else
      match splitWsL cs with
      | [] => [[c]]
      | t :: ts => (c :: t) :: ts

/-- `content.split(/\s+/)` as a list of strings. -/
def jsSplitWs (s : String) : List String :=
  (splitWsL s.toList).map String.mk

/-- `Math.ceil(n / d)` for natural `n` and positive natural `d`. -/
def jsCeilDiv (n d : Nat) : Nat := (n + d - 1) / d

/-- `x || 0` on a JS number known to be an integer: `0` stays `0`, everything
else is returned unchanged. -/
def jsOrZero (x : Int) : Int := if x = 0 then 0 else x

/-- Errors a `save` can return. The first five kinds are the spec taxonomy;
`enumViolation`, `minBound` and `maxBound` are the shapes mongoose's own
schema validators produce (`enum`, `min`, `max` options). -/
inductive ValErr where
  | requiredField (field : String)
  | lengthBound (field : String)
  | enumViolation (field : String)
  | minBound (field : String)
  | maxBound (field : String)
  | duplicate (field : String)
  | invalidReference (field : String)
  | targetMismatch
deriving DecidableEq, Repr

/-! ## Review (`src/models/mongoose/Review.js`) -/

/-- `voteSchema`: `user` (required ObjectId) and `type` (required, enum
`['helpful', 'not_helpful']`). -/
structure Vote where
  user : Option Nat
  type : String
deriving DecidableEq, Repr

/-- `replySchema`: the fields the hooks and claims touch (`author`,
`authorType` enum `['customer', 'seller', 'admin']` default `'customer'`,
`content` required maxlength 2000, `isOfficial` default `false`). -/
structure Reply where
  author : Option Nat
  authorType : String := "customer"
  content : String
  isOfficial : Bool := false
deriving DecidableEq, Repr

/-- A `flags` array entry of `reviewSchema` (`user`, `reason` enum,
`description`). -/
structure FlagEntry where
  user : Option Nat
  reason : Option String
  description : Option String
deriving DecidableEq, Repr

/-- `ratingBreakdownSchema`: `overall` required with `min 1, max 5`; the seven
optional criteria share the same bounds. -/
structure RatingBreakdown where
  overall : Int
  quality : Option Int := none
  value : Option Int := none
  shipping : Option Int := none
  packaging : Option Int := none
  customerService : Option Int := none
  easeOfUse : Option Int := none
  durability : Option Int := none
deriving DecidableEq, Repr

/-- `reviewSchema`, restricted to the target fields, the reviewer/rating/
content fields that carry validators, and the nested collections with their
denormalized counters. -/
structure ReviewDoc where
  targetType : String
  product : Option Nat := none
  post : Option Nat := none
  order : Option Nat := none
  targetUser : Option Nat := none
  user : Option Nat
  rating : Option RatingBreakdown
  content : String
  votes : List Vote := []
  helpfulCount : Int := 0
  notHelpfulCount : Int := 0
  helpfulnessScore : Int := 0
  replies : List Reply := []
  replyCount : Int := 0
  hasSellerReply : Bool := false
  status : String := "pending"
  flags : List FlagEntry := []
  flagCount : Int := 0
deriving DecidableEq, Repr

/-- One mongoose validator step: fail with `e` when `cond` holds. -/
def check (cond : Prop) [Decidable cond] (e : ValErr) : Except ValErr Unit :=
  if cond then throw e else pure ()

/-- Bounds check for one optional criterion of `ratingBreakdownSchema`
(`min: 1, max: 5`). -/
def validateCriterion (field : String) : Option Int → Except ValErr Unit
  | none => pure ()
  | some n =>
    check (n < 1) (ValErr.minBound field) >>= fun _ =>
    check (n > 5) (ValErr.maxBound field)

/-- Validators of `ratingBreakdownSchema`: `overall` is required with
`min 1, max 5`; the optional criteria carry the same bounds. -/
def validateRating (rb : RatingBreakdown) : Except ValErr Unit :=
  check (rb.overall < 1) (ValErr.minBound "rating.overall") >>= fun _ =>
  check (rb.overall > 5) (ValErr.maxBound "rating.overall") >>= fun _ =>
  validateCriterion "rating.quality" rb.quality >>= fun _ =>
  validateCriterion "rating.value" rb.value >>= fun _ =>
  validateCriterion "rating.shipping" rb.shipping >>= fun _ =>
  validateCriterion "rating.packaging" rb.packaging >>= fun _ =>
  validateCriterion "rating.customerService" rb.customerService >>= fun _ =>
  validateCriterion "rating.easeOfUse" rb.easeOfUse >>= fun _ =>
  validateCriterion "rating.durability" rb.durability

/-- Validators of `voteSchema` applied to each element of `votes`. -/
def validateVotes : List Vote → Except ValErr Unit
  | [] => pure ()
  | v :: vs =>
    check (v.user = none) (ValErr.requiredField "votes.user") >>= fun _ =>
    check (v.type ∉ ["helpful", "not_helpful"]) (ValErr.enumViolation "votes.type") >>= fun _ =>
    validateVotes vs

/-- Validators of the reply sub-schema applied to each element of
`replies`. -/
def validateReplies : List Reply → Except ValErr Unit
  | [] => pure ()
  | rp :: rps =>
    check (rp.author = none) (ValErr.requiredField "replies.author") >>= fun _ =>
    check (rp.authorType ∉ ["customer", "seller", "admin"])
      (ValErr.enumViolation "replies.authorType") >>= fun _ =>
    check (rp.content = "") (ValErr.requiredField "replies.content") >>= fun _ =>
    check (rp.content.length > 2000) (ValErr.lengthBound "replies.content") >>= fun _ =>
    validateReplies rps

/-- Mongoose schema validation for `reviewSchema`: the `required`, `enum`,
`min`/`max` and `minlength`/`maxlength` options declared in the schema for
the modelled fields. There is no validator of any kind on the four target
reference fields. (Mongoose collects every failure; we return the first.) -/
def reviewValidate (r : ReviewDoc) : Except ValErr Unit :=
  check (r.targetType = "") (ValErr.requiredField "targetType") >>= fun _ =>
  check (r.targetType ∉ ["product", "post", "user", "order"])
    (ValErr.enumViolation "targetType") >>= fun _ =>
  check (r.user = none) (ValErr.requiredField "user") >>= fun _ =>
  (match r.rating with
    | none => throw (ValErr.requiredField "rating")
    | some rb => validateRating rb) >>= fun _ =>
  check (r.content = "") (ValErr.requiredField "content") >>= fun _ =>
  check (r.content.length < 10) (ValErr.lengthBound "content") >>= fun _ =>
  check (r.content.length > 10000) (ValErr.lengthBound "content") >>= fun _ =>
  validateVotes r.votes >>= fun _ =>
  validateReplies r.replies >>= fun _ =>
  check (r.status ∉ ["pending", "approved", "rejected", "flagged", "hidden"])
    (ValErr.enumViolation "status")

/-- `reviewSchema.pre('save')` (Review.js lines 240-250): overwrite the six
denormalized counters from the nested collections. It performs no target
validation and cannot fail. -/
def reviewPreSave (r : ReviewDoc) : ReviewDoc :=
  let helpful : Int := (r.votes.filter (fun v => v.type == "helpful")).length
  let notHelpful : Int := (r.votes.filter (fun v => v.type == "not_helpful")).length
  { r with
    helpfulCount := helpful
    notHelpfulCount := notHelpful
    helpfulnessScore := helpful - notHelpful
    replyCount := r.replies.length
    hasSellerReply := r.replies.any (fun rp => rp.authorType == "seller" || rp.isOfficial)
    flagCount := r.flags.length }

/-- `review.save()`: mongoose validation, then the `pre('save')` hook, then
the (always successful, per-document) write. -/
def reviewSave (r : ReviewDoc) : Except ValErr ReviewDoc := do
  reviewValidate r
  pure (reviewPreSave r)

/-! ## Category (`src/models/mongoose/Category.js`) -/

/-- `categorySchema`, restricted to the identity and hierarchy fields the
`pre('save')` hook reads and writes. `path` has no schema default; the unset
value is modelled as `""` (both are falsy where the code tests `path`). -/
structure CategoryDoc where
  id : Nat
  name : String
  slug : String := ""
  parent : Option Nat := none
  ancestors : List Nat := []
  level : Int := 0
  path : String := ""
deriving DecidableEq, Repr

/-- Mongoose schema validation for the modelled fields of `categorySchema`:
`name` is required with `minlength 2`, `maxlength 100`. Nothing validates
`parent`, `ancestors`, `level` or `path`. -/
def categoryValidate (c : CategoryDoc) : Except ValErr Unit := do
  if c.name = "" then throw (ValErr.requiredField "name")
  if c.name.length < 2 then throw (ValErr.lengthBound "name")
  if c.name.length > 100 then throw (ValErr.lengthBound "name")

/-- `categorySchema.pre('save')` (Category.js lines 177-203). `store` is
`Category.findById`: it maps an ObjectId to the stored document, if any.
`nameModified` and `parentModified` are `this.isModified('name')` and
`this.isModified('parent')` (both true on a create). When the parent id has
no stored document the hook silently leaves `ancestors`/`level`/`path`
untouched; the path prefix is `parentCategory.path || parentCategory.slug`. -/
def categoryPreSave (store : Nat → Option CategoryDoc) (c : CategoryDoc)
    (nameModified parentModified : Bool) : CategoryDoc :=
  let c1 := if nameModified && c.slug == "" then
      { c with slug := slugify c.name }
    else c
  if parentModified then
    match c1.parent with
    | some pid =>
      match store pid with
      | some parentCategory =>
        { c1 with
          ancestors := parentCategory.ancestors ++ [parentCategory.id]
          level := parentCategory.level + 1
          path := (if parentCategory.path ≠ "" then parentCategory.path
                   else parentCategory.slug) ++ "/" ++ c1.slug }
      | none => c1
    | none => { c1 with ancestors := [], level := 0, path := c1.slug }
  else c1

/-- `category.save()`: validation, then the `pre('save')` hook. -/
def categorySave (store : Nat → Option CategoryDoc) (c : CategoryDoc)
    (nameModified parentModified : Bool) : Except ValErr CategoryDoc := do
  categoryValidate c
  pure (categoryPreSave store c nameModified parentModified)

/-! ## Post (`src/models/mongoose/Post.js`) -/

/-- `reactionSchema`: `user` and `type` (enum of six reaction names), both
required. -/
structure Reaction where
  user : Option Nat
  type : String
deriving DecidableEq, Repr

/-- Post `replySchema`: a nested reply with its own `reactions`. -/
structure PostReply where
  author : Option Nat
  content : String
  reactions : List Reaction := []
deriving DecidableEq, Repr

/-- `commentSchema`: a top-level comment with nested `reactions` and
`replies`. -/
structure PostComment where
  author : Option Nat
  content : String
  reactions : List Reaction := []
  replies : List PostReply := []
deriving DecidableEq, Repr

/-- The `stats` sub-document of `postSchema` (fields the hook writes plus
`views`, which it never touches). -/
structure PostStats where
  views : Int := 0
  readTime : Nat := 0
  reactionsCount : Nat := 0
  commentsCount : Nat := 0
deriving DecidableEq, Repr

/-- `postSchema`, restricted to title/slug/content/excerpt, the author and
category references, the top-level `reactions`/`comments` collections and
`stats`. `content` is `Option String` because the hook guards it with `?.`;
the schema's `trim: true` setter means a stored `content` value never has
leading or trailing whitespace. -/
structure PostDoc where
  title : String
  slug : String := ""
  content : Option String
  excerpt : String := ""
  author : Option Nat
  category : Option Nat
  reactions : List Reaction := []
  comments : List PostComment := []
  stats : PostStats := {}
deriving DecidableEq, Repr

/-- Mongoose schema validation for the modelled fields of `postSchema`:
`title` required, 3..200 chars; `content` required; `author` and `category`
required. -/
def postValidate (p : PostDoc) : Except ValErr Unit := do
  if p.title = "" then throw (ValErr.requiredField "title")
  if p.title.length < 3 then throw (ValErr.lengthBound "title")
  if p.title.length > 200 then throw (ValErr.lengthBound "title")
  match p.content with
  | none => throw (ValErr.requiredField "content")
  | some s => if s = "" then throw (ValErr.requiredField "content")
  if p.author = none then throw (ValErr.requiredField "author")
  if p.category = none then throw (ValErr.requiredField "category")

/-- `content.substring(0, 300)`. -/
def jsSubstring300 (s : String) : String := String.mk (s.toList.take 300)

/-- `postSchema.pre('save')` (Post.js lines 318-343). `now` is `Date.now()`.
The slug branch appends `'-' + Date.now()` unconditionally; the read-time
branch counts `content?.split(/\s+/).length || 0` (no empty-word filter); the
two stats counts are overwritten on every save. -/
def postPreSave (p : PostDoc) (titleModified contentModified : Bool)
    (now : Nat) : PostDoc :=
  let p1 := if titleModified && p.slug == "" then
      { p with slug := slugify p.title ++ "-" ++ toString now }
    else p
  let p2 := if contentModified && p1.excerpt == "" then
      { p1 with excerpt := (match p1.content with
          | some s => jsSubstring300 s
          | none => "undefined") ++ "..." }
    else p1
  let p3 := if contentModified then
      let wordCount : Nat := match p2.content with
        | some s => (jsSplitWs s).length
        | none => 0
      { p2 with stats := { p2.stats with readTime := jsCeilDiv wordCount 200 } }
    else p2
  { p3 with stats := { p3.stats with
      reactionsCount := p3.reactions.length
      commentsCount := p3.comments.length } }

/-- `post.save()`: validation, then the `pre('save')` hook. -/
def postSave (p : PostDoc) (titleModified contentModified : Bool)
    (now : Nat) : Except ValErr PostDoc := do
  postValidate p
  pure (postPreSave p titleModified contentModified now)

/-- `postSchema.virtual('wordCount')` (Post.js lines 273-276): `0` when
`content` is falsy, else the count of non-empty fields of
`content.split(/\s+/)`. -/
def postWordCount (p : PostDoc) : Nat :=
  match p.content with
  | none => 0
  | some s =>
    if s = "" then 0
    else ((jsSplitWs s).filter (fun word => word.length > 0)).length

/-! ## Order (`src/unnamed/part_002`, the mongoose Order model) -/

/-- An `items[]` entry of `orderSchema`, restricted to the fields the claims
touch: `product` (required ObjectId) and `quantity` (required, `min: 1`).
The monetary snapshot fields are floats and are not used by any hook. -/
structure OrderItem where
  product : Option Nat
  quantity : Int
deriving DecidableEq, Repr

/-- `orderSchema`, restricted to `orderNumber`, `user`, `items` and the
denormalized `itemCount`. -/
structure OrderDoc where
  orderNumber : String := ""
  user : Option Nat
  items : List OrderItem := []
  itemCount : Int := 0
deriving DecidableEq, Repr

/-- `orderSchema.pre('save')` (part_002 lines 347-357): recompute
`itemCount = items.reduce((sum, item) => sum + item.quantity, 0) || 0` and
generate `orderNumber` for new documents without one. `now` is `Date.now()`
and `rand` the `Math.random().toString(36).substr(2, 9).toUpperCase()`
fragment. -/
def orderPreSave (o : OrderDoc) (isNew : Bool) (now : Nat) (rand : String) :
    OrderDoc :=
  let o1 := { o with
    itemCount := jsOrZero (o.items.foldl (fun sum item => sum + item.quantity) 0) }
  if isNew && o1.orderNumber == "" then
    { o1 with orderNumber := "ORD-" ++ toString now ++ "-" ++ rand }
  else o1

/-- `orderSchema.virtual('totalQuantity')` (part_002 lines 300-303):
`items.reduce((sum, item) => sum + item.quantity, 0) || 0`. -/
def orderTotalQuantity (o : OrderDoc) : Int :=
  jsOrZero (o.items.foldl (fun sum item => sum + item.quantity) 0)

/-! ## Shared helper lemmas -/

/-- `x || 0` is the identity on integers. -/
theorem jsOrZero_eq (x : Int) : jsOrZero x = x := by
  unfold jsOrZero; split <;> omega

/-- `items.reduce((sum, item) => sum + item.quantity, 0)` is the sum of the
quantities. -/
theorem foldl_quantity_eq_sum (items : List OrderItem) (a : Int) :
    items.foldl (fun sum item => sum + item.quantity) a =
      a + (items.map OrderItem.quantity).sum := by
  induction items generalizing a with
  | nil => simp
  | cons i is ih => simp [List.foldl_cons, ih, add_assoc]

/-! ## C6: Review counter invariants -/

/-- C6: after any successful Review save, `helpfulCount` is the number of
`helpful` votes, `notHelpfulCount` the number of `not_helpful` votes,
`helpfulnessScore` their difference, `replyCount` the number of replies,
`hasSellerReply` holds iff some reply is by a seller or official, and
`flagCount` is the number of flags. -/
theorem c6_review_counters (r r' : ReviewDoc) (h : reviewSave r = .ok r') :
    r'.helpfulCount = ((r'.votes.filter (fun v => v.type == "helpful")).length : Int) ∧
    r'.notHelpfulCount = ((r'.votes.filter (fun v => v.type == "not_helpful")).length : Int) ∧
    r'.helpfulnessScore = r'.helpfulCount - r'.notHelpfulCount ∧
    r'.replyCount = (r'.replies.length : Int) ∧
    (r'.hasSellerReply = true ↔ ∃ rp ∈ r'.replies, rp.authorType = "seller" ∨ rp.isOfficial = true) ∧
    r'.flagCount = (r'.flags.length : Int) := by
  have hr : r' = reviewPreSave r := by
    unfold reviewSave at h
    cases hv : reviewValidate r with
    | error e => rw [hv] at h; simp [Bind.bind, Except.bind] at h
    | ok u => rw [hv] at h; simp [Bind.bind, Except.bind, pure, Except.pure] at h; exact h.symm
  subst hr
  refine ⟨rfl, rfl, rfl, rfl, ?_, rfl⟩
  simp [reviewPreSave, List.any_eq_true, Bool.or_eq_true, beq_iff_eq]

/-- A concrete Review with three votes, one official seller reply and one
flag, used to instantiate C6. -/
def rev6 : ReviewDoc :=
  { targetType := "product", product := some 3, user := some 1,
    rating := some { overall := 5 }, content := "great product, works!",
    votes := [⟨some 1, "helpful"⟩, ⟨some 2, "helpful"⟩, ⟨some 3, "not_helpful"⟩],
    replies := [{ author := some 4, authorType := "seller", content := "thanks" }],
    flags := [⟨some 5, some "spam", none⟩] }

/-- Witness for C6 at `rev6`. -/
theorem c6_review_counters_witness :
    (reviewPreSave rev6).helpfulCount =
      (((reviewPreSave rev6).votes.filter (fun v => v.type == "helpful")).length : Int) ∧
    (reviewPreSave rev6).notHelpfulCount =
      (((reviewPreSave rev6).votes.filter (fun v => v.type == "not_helpful")).length : Int) ∧
    (reviewPreSave rev6).helpfulnessScore =
      (reviewPreSave rev6).helpfulCount - (reviewPreSave rev6).notHelpfulCount ∧
    (reviewPreSave rev6).replyCount = ((reviewPreSave rev6).replies.length : Int) ∧
    ((reviewPreSave rev6).hasSellerReply = true ↔
      ∃ rp ∈ (reviewPreSave rev6).replies, rp.authorType = "seller" ∨ rp.isOfficial = true) ∧
    (reviewPreSave rev6).flagCount = ((reviewPreSave rev6).flags.length : Int) :=
  c6_review_counters rev6 (reviewPreSave rev6) rfl

/-! ## C7: Post top-level stats counts -/

/-- C7: after any save (any combination of modified flags), the Post's
`stats.reactionsCount` and `stats.commentsCount` equal the lengths of the
top-level `reactions` and `comments` lists; the reactions nested inside
comments and replies play no part. -/
theorem c7_post_counts (p : PostDoc) (tm cm : Bool) (now : Nat) :
    (postPreSave p tm cm now).stats.reactionsCount =
      (postPreSave p tm cm now).reactions.length ∧
    (postPreSave p tm cm now).stats.commentsCount =
      (postPreSave p tm cm now).comments.length :=
  ⟨rfl, rfl⟩

/-! ## C9: Order itemCount invariant -/

/-- C9: after any save the Order's `itemCount` is the sum of the quantities
of its items; in particular quantities 2 and 3 give 5, and no items give 0. -/
theorem c9_order_item_count :
    (∀ (o : OrderDoc) (isNew : Bool) (now : Nat) (rand : String),
      (orderPreSave o isNew now rand).itemCount = (o.items.map OrderItem.quantity).sum) ∧
    (orderPreSave { user := some 1, items := [⟨some 10, 2⟩, ⟨some 11, 3⟩] }
      true 0 "A1B2C3D4E").itemCount = 5 ∧
    (orderPreSave { user := some 1 } true 0 "A1B2C3D4E").itemCount = 0 := by
  refine ⟨?_, by decide, by decide⟩
  intro o isNew now rand
  simp only [orderPreSave]
  split <;> simp [jsOrZero_eq, foldl_quantity_eq_sum]

/-! ## C10: totalQuantity virtual agrees with itemCount -/

/-- C10: for every saved Order state, the `totalQuantity` virtual and the
stored `itemCount` agree (both are the sum of the item quantities). -/
theorem c10_total_quantity_agrees (o : OrderDoc) (isNew : Bool) (now : Nat)
    (rand : String) :
    orderTotalQuantity (orderPreSave o isNew now rand) =
      (orderPreSave o isNew now rand).itemCount := by
  simp only [orderPreSave, orderTotalQuantity]
  split <;> rfl

/-! ## C1: no target validation on Review -/

/-- A thrown error is the error it throws. -/
theorem throw_ne {e e' : ValErr} (h : e ≠ e') :
    (throw e : Except ValErr Unit) ≠ .error e' :=
  fun hh => h (Except.error.inj hh)

/-- A `check` validation step never surfaces a different error. -/
theorem check_ne {c : Prop} [Decidable c] {e e' : ValErr} (h : e ≠ e') :
    check c e ≠ .error e' := by
  unfold check
  split
  · exact throw_ne h
  · intro hh
    exact Except.noConfusion hh

/-- Sequencing two validation steps surfaces no error that neither step can
produce. -/
theorem except_bind_ne {α : Type} {x : Except ValErr Unit}
    {k : Unit → Except ValErr α} {e : ValErr}
    (hx : x ≠ .error e) (hk : ∀ u, k u ≠ .error e) : (x >>= k) ≠ .error e := by
  cases x with
  | error e' =>
    simp only [Bind.bind, Except.bind]
    intro h
    exact hx (by rw [Except.error.injEq] at h; rw [h])
  | ok u =>
    simpa only [Bind.bind, Except.bind] using hk u

/-- No criterion bounds check produces `target_mismatch`. -/
theorem validateCriterion_ne_tm (f : String) (v : Option Int) :
    validateCriterion f v ≠ .error ValErr.targetMismatch := by
  cases v with
  | none => intro h; exact Except.noConfusion h
  | some n =>
    simp only [validateCriterion]
    refine except_bind_ne ?_ (fun _ => ?_) <;>
      exact check_ne (fun h => ValErr.noConfusion h)

/-- Rating validation never produces `target_mismatch`. -/
theorem validateRating_ne_tm (rb : RatingBreakdown) :
    validateRating rb ≠ .error ValErr.targetMismatch := by
  simp only [validateRating]
  repeat' refine except_bind_ne ?_ (fun _ => ?_)
  all_goals first
    | exact check_ne (fun h => ValErr.noConfusion h)
    | exact validateCriterion_ne_tm _ _

/-- Vote validation never produces `target_mismatch`. -/
theorem validateVotes_ne_tm (vs : List Vote) :
    validateVotes vs ≠ .error ValErr.targetMismatch := by
  induction vs with
  | nil => intro h; exact Except.noConfusion h
  | cons v vs ih =>
    simp only [validateVotes]
    repeat' refine except_bind_ne ?_ (fun _ => ?_)
    all_goals first
      | exact check_ne (fun h => ValErr.noConfusion h)
      | exact ih

/-- Reply validation never produces `target_mismatch`. -/
theorem validateReplies_ne_tm (rps : List Reply) :
    validateReplies rps ≠ .error ValErr.targetMismatch := by
  induction rps with
  | nil => intro h; exact Except.noConfusion h
  | cons rp rps ih =>
    simp only [validateReplies]
    repeat' refine except_bind_ne ?_ (fun _ => ?_)
    all_goals first
      | exact check_ne (fun h => ValErr.noConfusion h)
      | exact ih

/-- Review schema validation never produces `target_mismatch`. -/
theorem reviewValidate_ne_tm (r : ReviewDoc) :
    reviewValidate r ≠ .error ValErr.targetMismatch := by
  simp only [reviewValidate]
  repeat' refine except_bind_ne ?_ (fun _ => ?_)
  all_goals first
    | exact check_ne (fun h => ValErr.noConfusion h)
    | exact validateVotes_ne_tm _
    | exact validateReplies_ne_tm _
    | (cases r.rating with
       | none => exact throw_ne (fun h => ValErr.noConfusion h)
       | some rb => exact validateRating_ne_tm rb)

/-- A Review whose `targetType` is `product` but whose `post` field is the
one populated: the claim says saving it fails with `target_mismatch`. -/
def rev1 : ReviewDoc :=
  { targetType := "product", post := some 7, product := none,
    user := some 1, rating := some { overall := 4 },
    content := "does not match its target" }

/-- C1 counterexample: the mismatched review `rev1` saves successfully (no
target-validation step exists in `Review.js`; the only `pre('save')` hook
recomputes counters), so no `ValidationError{kind: target_mismatch}` is
produced. -/
theorem c1_counterexample :
    rev1.targetType = "product" ∧ rev1.post = some 7 ∧ rev1.product = none ∧
    reviewSave rev1 = Except.ok (reviewPreSave rev1) ∧
    reviewSave rev1 ≠ Except.error ValErr.targetMismatch := by
  refine ⟨rfl, rfl, rfl, rfl, ?_⟩
  intro h
  rw [show reviewSave rev1 = Except.ok (reviewPreSave rev1) from rfl] at h
  exact Except.noConfusion h

/-- C1 amended: no target-validation step runs on Review create/update. A
save never fails with `target_mismatch`, and any review that passes the
schema validators — which never inspect the `product`/`post`/`targetUser`/
`order` fields — is saved with only its counters recomputed, even when the
populated target field does not match `targetType`. -/
theorem c1_no_target_validation (r : ReviewDoc) :
    reviewSave r ≠ Except.error ValErr.targetMismatch ∧
    (reviewValidate r = .ok () → reviewSave r = .ok (reviewPreSave r)) := by
  constructor
  · unfold reviewSave
    exact except_bind_ne (reviewValidate_ne_tm r) (fun _ h => Except.noConfusion h)
  · intro hv
    unfold reviewSave
    rw [hv]
    rfl

/-- Witness for C1 at the mismatched review `rev1`: its save succeeds. -/
theorem c1_no_target_validation_witness :
    reviewSave rev1 = .ok (reviewPreSave rev1) :=
  (c1_no_target_validation rev1).2 rfl

/-! ## C2: Category hierarchy recompute -/

/-- A stored parent category whose `path` is empty (reachable by creating a
category whose name slugifies to the empty string — e.g. `"!!"` — and then
patching `slug` alone, which triggers neither slug regeneration nor
hierarchy recompute). -/
def c2Parent : CategoryDoc :=
  { id := 1, name := "!!", slug := "x", parent := none,
    ancestors := [], level := 0, path := "" }

/-- Store containing only `c2Parent`. -/
def c2Store : Nat → Option CategoryDoc :=
  fun pid => if pid = 1 then some c2Parent else none

/-- A child category saved with `parent` set to `c2Parent`. -/
def c2Child : CategoryDoc :=
  { id := 2, name := "Phones", slug := "phones", parent := some 1 }

/-- C2 counterexample: with a stored parent whose `path` is empty but whose
`slug` is `"x"`, the hook computes the child's path from the parent's slug
(`parentCategory.path || parentCategory.slug`), so the saved path is
`"x/phones"` whereas the claim's `parent.path + "/" + slug` would be
`"/phones"`. -/
theorem c2_counterexample :
    c2Store 1 = some c2Parent ∧
    (categoryPreSave c2Store c2Child false true).path = "x/phones" ∧
    c2Parent.path ++ "/" ++ (categoryPreSave c2Store c2Child false true).slug
      = "/phones" ∧
    ("x/phones" : String) ≠ "/phones" := by
  refine ⟨rfl, rfl, rfl, ?_⟩
  decide

/-- C2 amended: saving a category with `parent` set to an existing stored
parent recomputes `level` as the parent's level plus one, `ancestors` as the
parent's ancestors with the parent's id appended, and `path` as the parent's
path — or, when the parent's path is empty/unset, the parent's slug —
followed by `"/"` and the category's own slug; saving with `parent` null
resets `ancestors` to `[]`, `level` to `0` and `path` to the slug. -/
theorem c2_hierarchy_recompute (store : Nat → Option CategoryDoc)
    (c : CategoryDoc) (nm : Bool) :
    (∀ pid p, c.parent = some pid → store pid = some p →
      (categoryPreSave store c nm true).level = p.level + 1 ∧
      (categoryPreSave store c nm true).ancestors = p.ancestors ++ [p.id] ∧
      (categoryPreSave store c nm true).path =
        (if p.path ≠ "" then p.path else p.slug) ++ "/" ++
          (categoryPreSave store c nm true).slug) ∧
    (c.parent = none →
      (categoryPreSave store c nm true).ancestors = [] ∧
      (categoryPreSave store c nm true).level = 0 ∧
      (categoryPreSave store c nm true).path =
        (categoryPreSave store c nm true).slug) := by
  constructor
  · intro pid p hpid hp
    cases hb : nm && c.slug == "" <;>
      simp [categoryPreSave, hb, hpid, hp]
  · intro hnone
    cases hb : nm && c.slug == "" <;>
      simp [categoryPreSave, hb, hnone]

/-- The root category of §8's scenario (`Electronics`). -/
def c2WParent : CategoryDoc :=
  { id := 10, name := "Electronics", slug := "electronics", parent := none,
    ancestors := [], level := 0, path := "electronics" }

/-- Store containing only `c2WParent`. -/
def c2WStore : Nat → Option CategoryDoc :=
  fun pid => if pid = 10 then some c2WParent else none

/-- `Phones`, created with parent `Electronics`. -/
def c2WChild : CategoryDoc :=
  { id := 11, name := "Phones", slug := "phones", parent := some 10 }

/-- A root category being saved with `parent` null. -/
def c2WRoot : CategoryDoc :=
  { id := 12, name := "Books", slug := "books", parent := none }

/-- Witness for C2: the Electronics/Phones scenario and a root save. -/
theorem c2_hierarchy_recompute_witness :
    ((categoryPreSave c2WStore c2WChild false true).level = c2WParent.level + 1 ∧
     (categoryPreSave c2WStore c2WChild false true).ancestors =
       c2WParent.ancestors ++ [c2WParent.id] ∧
     (categoryPreSave c2WStore c2WChild false true).path =
       (if c2WParent.path ≠ "" then c2WParent.path else c2WParent.slug) ++ "/" ++
         (categoryPreSave c2WStore c2WChild false true).slug) ∧
    ((categoryPreSave c2WStore c2WRoot false true).ancestors = [] ∧
     (categoryPreSave c2WStore c2WRoot false true).level = 0 ∧
     (categoryPreSave c2WStore c2WRoot false true).path =
       (categoryPreSave c2WStore c2WRoot false true).slug) :=
  ⟨(c2_hierarchy_recompute c2WStore c2WChild false).1 10 c2WParent rfl rfl,
   (c2_hierarchy_recompute c2WStore c2WRoot false).2 rfl⟩

/-! ## C3: Category with a dangling parent reference -/

/-- A category whose `parent` id (99) has no stored document. -/
def cat3 : CategoryDoc :=
  { id := 5, name := "Phones", slug := "phones", parent := some 99,
    ancestors := [7], level := 3, path := "stale/phones" }

/-- An empty category store. -/
def c3Store : Nat → Option CategoryDoc := fun _ => none

/-- C3 counterexample: saving `cat3`, whose parent id has no stored
document, succeeds and returns the document unchanged — keeping its stale
`ancestors`/`level`/`path` — instead of failing with
`ValidationError{kind: invalid_reference}` as the claim states. -/
theorem c3_counterexample :
    c3Store 99 = none ∧
    categorySave c3Store cat3 false true = Except.ok cat3 ∧
    categorySave c3Store cat3 false true
      ≠ Except.error (ValErr.invalidReference "parent") := by
  refine ⟨rfl, rfl, ?_⟩
  intro h
  rw [show categorySave c3Store cat3 false true = Except.ok cat3 from rfl] at h
  exact Except.noConfusion h

/-- C3 amended: saving a category whose non-null `parent` refers to an id
with no stored document does not fail; the hook silently skips the
recompute, so the save succeeds with `ancestors`, `level` and `path` left
exactly as they were. -/
theorem c3_missing_parent_silent (store : Nat → Option CategoryDoc)
    (c : CategoryDoc) (nm : Bool) (pid : Nat)
    (hp : c.parent = some pid) (hs : store pid = none)
    (hv : categoryValidate c = .ok ()) :
    categorySave store c nm true = .ok (categoryPreSave store c nm true) ∧
    (categoryPreSave store c nm true).ancestors = c.ancestors ∧
    (categoryPreSave store c nm true).level = c.level ∧
    (categoryPreSave store c nm true).path = c.path := by
  refine ⟨?_, ?_, ?_, ?_⟩
  · unfold categorySave
    rw [hv]
    rfl
  all_goals
    cases hb : nm && c.slug == "" <;>
      simp [categoryPreSave, hb, hp, hs]

/-- Witness for C3 at `cat3` in the empty store. -/
theorem c3_missing_parent_silent_witness :
    categorySave c3Store cat3 false true
      = .ok (categoryPreSave c3Store cat3 false true) ∧
    (categoryPreSave c3Store cat3 false true).ancestors = cat3.ancestors ∧
    (categoryPreSave c3Store cat3 false true).level = cat3.level ∧
    (categoryPreSave c3Store cat3 false true).path = cat3.path :=
  c3_missing_parent_silent c3Store cat3 false 99 rfl rfl rfl

/-! ## C4: Post slug generation always appends the timestamp -/

/-- A Post draft created without an explicit slug. -/
def post4 : PostDoc :=
  { title := "Hello", content := some "some words here",
    author := some 1, category := some 2 }

/-- C4 counterexample: even though no other Post exists (the hook consults
no store at all, so there can be no collision), the generated slug is the
slugified title with `'-' + Date.now()` appended, not the bare slugified
title as the claim states for the collision-free case. -/
theorem c4_counterexample :
    (postPreSave post4 true false 1700000000000).slug = "hello-1700000000000" ∧
    slugify post4.title = "hello" ∧
    (postPreSave post4 true false 1700000000000).slug ≠ slugify post4.title := by
  refine ⟨rfl, rfl, ?_⟩
  decide

/-- C4 amended: for every Post created without an explicit slug (title
modified, slug unset), the hook unconditionally sets
`slug = slugify(title) + "-" + Date.now()`; no collision check exists, so
the disambiguator is appended even when the bare slug would not collide. -/
theorem c4_slug_generation (p : PostDoc) (cm : Bool) (now : Nat)
    (h : p.slug = "") :
    (postPreSave p true cm now).slug = slugify p.title ++ "-" ++ toString now := by
  simp [postPreSave, h]
  repeat' split
  all_goals rfl

/-- Witness for C4 at `post4`. -/
theorem c4_slug_generation_witness :
    (postPreSave post4 true false 42).slug
      = slugify post4.title ++ "-" ++ toString 42 :=
  c4_slug_generation post4 false 42 rfl

/-! ## C8: Post read time -/

/-- The last character of `l`, if any, is not whitespace. -/
def endsOkL (l : List Char) : Prop :=
  ∀ d, l.getLast? = some d → jsWs d = false

/-- `split` never returns an empty field list. -/
theorem splitWsL_ne_nil (l : List Char) : splitWsL l ≠ [] := by
  induction l with
  | nil => simp [splitWsL]
  | cons c cs ih =>
    cases hw : jsWs c with
    | true =>
      cases cs with
      | nil => simp [splitWsL, hw]
      | cons d ds =>
        cases hd : jsWs d with
        | true => simpa [splitWsL, hw, hd] using ih
        | false => simp [splitWsL, hw, hd]
    | false =>
      cases hx : splitWsL cs with
      | nil => exact absurd hx ih
      | cons t ts => simp [splitWsL, hw, hx]

/-- When the string starts with a non-whitespace character, the first field
is non-empty. -/
theorem splitWsL_head_ne (c : Char) (cs : List Char) (hw : jsWs c = false) :
    ∀ x, (splitWsL (c :: cs)).head? = some x → x ≠ [] := by
  intro x hx
  cases h : splitWsL cs with
  | nil => exact absurd h (splitWsL_ne_nil cs)
  | cons t ts =>
    rw [show splitWsL (c :: cs) = (c :: t) :: ts by simp [splitWsL, hw, h]] at hx
    simp at hx
    rw [← hx]
    simp

/-- When the string does not end in whitespace, every field after the first
is non-empty. -/
theorem splitWsL_tail_ne (l : List Char) (he : endsOkL l) :
    ∀ t ∈ (splitWsL l).tail, t ≠ [] := by
  induction l with
  | nil => simp [splitWsL]
  | cons c cs ih =>
    cases hw : jsWs c with
    | true =>
      cases cs with
      | nil =>
        exfalso
        have hcl := he c (by simp)
        rw [hw] at hcl
        exact Bool.noConfusion hcl
      | cons d ds =>
        have he' : endsOkL (d :: ds) := by
          intro x hx
          exact he x (by rw [List.getLast?_cons_cons]; exact hx)
        cases hd : jsWs d with
        | true =>
          rw [show splitWsL (c :: d :: ds) = splitWsL (d :: ds) by
            simp [splitWsL, hw, hd]]
          exact ih he'
        | false =>
          rw [show splitWsL (c :: d :: ds) = [] :: splitWsL (d :: ds) by
            simp [splitWsL, hw, hd]]
          intro t ht
          cases hx : splitWsL (d :: ds) with
          | nil => exact absurd hx (splitWsL_ne_nil _)
          | cons x xs =>
            rw [hx] at ht
            simp only [List.tail_cons] at ht
            rcases List.mem_cons.mp ht with h1 | h2
            · subst h1
              exact splitWsL_head_ne d ds hd t (by rw [hx]; rfl)
            · exact ih he' t (by rw [hx]; simpa using h2)
    | false =>
      cases hx : splitWsL cs with
      | nil =>
        rw [show splitWsL (c :: cs) = [[c]] by simp [splitWsL, hw, hx]]
        simp
      | cons t0 ts =>
        rw [show splitWsL (c :: cs) = (c :: t0) :: ts by simp [splitWsL, hw, hx]]
        intro t ht
        simp only [List.tail_cons] at ht
        have he' : endsOkL cs := by
          cases cs with
          | nil => intro x hx'; simp at hx'
          | cons e es =>
            intro x hx'
            exact he x (by rw [List.getLast?_cons_cons]; exact hx')
        exact ih he' t (by rw [hx]; simpa using ht)

/-- A trimmed non-empty string splits into non-empty fields only. -/
theorem splitWsL_all_ne (c : Char) (cs : List Char) (hw : jsWs c = false)
    (he : endsOkL (c :: cs)) : ∀ t ∈ splitWsL (c :: cs), t ≠ [] := by
  intro t ht
  cases hx : splitWsL (c :: cs) with
  | nil => exact absurd hx (splitWsL_ne_nil _)
  | cons x xs =>
    rw [hx] at ht
    rcases List.mem_cons.mp ht with h1 | h2
    · subst h1
      exact splitWsL_head_ne c cs hw t (by rw [hx]; rfl)
    · have := splitWsL_tail_ne (c :: cs) he
      exact this t (by rw [hx]; simpa using h2)

/-- The stored form of a mongoose string field with `trim: true` that passed
the `required` validator: non-empty, and neither its first nor its last
character is whitespace. -/
def trimmedNonempty (s : String) : Bool :=
  match s.toList with
  | [] => false
  | c :: cs =>
    !jsWs c &&
      (match (c :: cs).getLast? with
       | some d => !jsWs d
       | none => true)

/-- Unpacking `trimmedNonempty`. -/
theorem trimmedNonempty_spec (s : String) (h : trimmedNonempty s = true) :
    ∃ c cs, s.toList = c :: cs ∧ jsWs c = false ∧ endsOkL s.toList := by
  cases hl : s.toList with
  | nil =>
    have hl' : s.data = [] := hl
    simp only [trimmedNonempty, String.toList] at h
    rw [hl'] at h
    simp at h
  | cons c cs =>
    have hl' : s.data = c :: cs := hl
    simp only [trimmedNonempty, String.toList] at h
    rw [hl'] at h
    simp only [Bool.and_eq_true, Bool.not_eq_true'] at h
    refine ⟨c, cs, rfl, h.1, ?_⟩
    intro d hd
    have h2 := h.2
    rw [hd] at h2
    simpa using h2

/-- C8: after any save in which `content` was set or modified, the Post's
`stats.readTime` equals the ceiling of the word count of `content` divided
by 200, where the word count (the `wordCount` virtual) is the number of
non-empty whitespace-separated words. The hypothesis records that a stored
`content` passed the `trim: true` setter and the `required` validator, so it
is non-empty with non-whitespace endpoints; on such strings the hook's
unfiltered `content.split(/\s+/).length` equals the filtered word count. -/
theorem c8_read_time (p : PostDoc) (tm : Bool) (now : Nat) (s : String)
    (hc : p.content = some s) (ht : trimmedNonempty s = true) :
    (postPreSave p tm true now).stats.readTime = jsCeilDiv (postWordCount p) 200 := by
  obtain ⟨c, cs, hl, hw, he⟩ := trimmedNonempty_spec s ht
  have hall : ∀ t ∈ splitWsL s.toList, t ≠ [] := by
    rw [hl] at he ⊢
    exact splitWsL_all_ne c cs hw he
  have hfilter : (jsSplitWs s).filter (fun w => w.length > 0) = jsSplitWs s := by
    rw [List.filter_eq_self]
    intro w hmem
    simp only [jsSplitWs, List.mem_map] at hmem
    obtain ⟨t, htl, hmk⟩ := hmem
    subst hmk
    have hne : t ≠ [] := hall t htl
    simpa using List.length_pos.mpr hne
  have hsne : s ≠ "" := by
    intro h0
    rw [h0] at hl
    exact List.noConfusion hl
  have hwc : postWordCount p = (jsSplitWs s).length := by
    simp [postWordCount, hc, hsne, hfilter]
  have hrt : (postPreSave p tm true now).stats.readTime
      = jsCeilDiv ((jsSplitWs s).length) 200 := by
    simp [postPreSave, hc, apply_ite PostDoc.content, ite_self]
  rw [hrt, hwc]

/-- A Post whose content has three words, used to instantiate C8. -/
def post8 : PostDoc :=
  { title := "Reading time", content := some "one two three",
    author := some 1, category := some 2 }

/-- Witness for C8 at `post8`: three words give a read time of 1 minute. -/
theorem c8_read_time_witness :
    (postPreSave post8 false true 0).stats.readTime
      = jsCeilDiv (postWordCount post8) 200 :=
  c8_read_time post8 false 0 "one two three" rfl (by decide)

/-! ## C5: slugify idempotence -/

/-- Adjacent characters of a slug in normal form are never both
non-alphanumeric (the regex replaced every such run by one hyphen). -/
def slugRel (a b : Char) : Prop := isAlnum a = true ∨ isAlnum b = true

/-- The hyphen is not alphanumeric. -/
theorem isAlnum_hyphen : isAlnum '-' = false := by decide

/-- Lowercasing fixes slug characters (lowercase letters, digits, hyphen). -/
theorem jsToLower_fixed (c : Char) (h : isAlnum c = true ∨ c = '-') :
    jsToLower c = c := by
  rcases h with h | rfl
  · unfold jsToLower
    split
    · next hcond =>
      exfalso
      simp only [isAlnum, Bool.or_eq_true, Bool.and_eq_true,
        decide_eq_true_eq] at h
      simp only [Bool.and_eq_true, decide_eq_true_eq] at hcond
      omega
    · rfl
  · decide

/-- Every character the run-replacement emits is alphanumeric or a hyphen. -/
theorem replaceRunsAux_mem (b : Bool) (m : List Char) :
    ∀ c ∈ replaceRunsAux b m, isAlnum c = true ∨ c = '-' := by
  induction m generalizing b with
  | nil => simp [replaceRunsAux]
  | cons y ys ih =>
    intro c hc
    cases hy : isAlnum y with
    | true =>
      rw [show replaceRunsAux b (y :: ys) = y :: replaceRunsAux false ys by
        simp [replaceRunsAux, hy]] at hc
      rcases List.mem_cons.mp hc with h | h
      · subst h; exact Or.inl hy
      · exact ih false c h
    | false =>
      cases b with
      | true =>
        rw [show replaceRunsAux true (y :: ys) = replaceRunsAux true ys by
          simp [replaceRunsAux, hy]] at hc
        exact ih true c hc
      | false =>
        rw [show replaceRunsAux false (y :: ys) = '-' :: replaceRunsAux true ys by
          simp [replaceRunsAux, hy]] at hc
        rcases List.mem_cons.mp hc with h | h
        · exact Or.inr h
        · exact ih true c h

/-- While inside a run, the next character the replacement emits is
alphanumeric. -/
theorem replaceRunsAux_true_head (m : List Char) :
    ∀ x, (replaceRunsAux true m).head? = some x → isAlnum x = true := by
  induction m with
  | nil => intro x hx; simp [replaceRunsAux] at hx
  | cons y ys ih =>
    intro x hx
    cases hy : isAlnum y with
    | true =>
      rw [show replaceRunsAux true (y :: ys) = y :: replaceRunsAux false ys by
        simp [replaceRunsAux, hy]] at hx
      simp only [List.head?_cons, Option.some.injEq] at hx
      rw [← hx]; exact hy
    | false =>
      rw [show replaceRunsAux true (y :: ys) = replaceRunsAux true ys by
        simp [replaceRunsAux, hy]] at hx
      exact ih x hx

/-- The run-replacement output never has two adjacent non-alphanumeric
characters. -/
theorem replaceRunsAux_chain' (b : Bool) (m : List Char) :
    List.Chain' slugRel (replaceRunsAux b m) := by
  induction m generalizing b with
  | nil => simp [replaceRunsAux]
  | cons y ys ih =>
    cases hy : isAlnum y with
    | true =>
      rw [show replaceRunsAux b (y :: ys) = y :: replaceRunsAux false ys by
        simp [replaceRunsAux, hy]]
      exact List.chain'_cons'.mpr ⟨fun z _ => Or.inl hy, ih false⟩
    | false =>
      cases b with
      | true =>
        rw [show replaceRunsAux true (y :: ys) = replaceRunsAux true ys by
          simp [replaceRunsAux, hy]]
        exact ih true
      | false =>
        rw [show replaceRunsAux false (y :: ys) = '-' :: replaceRunsAux true ys by
          simp [replaceRunsAux, hy]]
        refine List.chain'_cons'.mpr ⟨fun z hz => ?_, ih true⟩
        exact Or.inr (replaceRunsAux_true_head ys z (Option.mem_def.mp hz))

/-- The run-replacement is the identity on normal-form strings, and even
with the in-run flag set when the first character is alphanumeric. -/
theorem replaceRunsAux_fixed (t : List Char)
    (h1 : ∀ c ∈ t, isAlnum c = true ∨ c = '-')
    (h2 : List.Chain' slugRel t) :
    replaceRunsAux false t = t ∧
      ((∀ x, t.head? = some x → isAlnum x = true) →
        replaceRunsAux true t = t) := by
  induction t with
  | nil => exact ⟨rfl, fun _ => rfl⟩
  | cons c ts ih =>
    have h1ts : ∀ d ∈ ts, isAlnum d = true ∨ d = '-' :=
      fun d hd => h1 d (List.mem_cons_of_mem c hd)
    have h2ts : List.Chain' slugRel ts := h2.tail
    obtain ⟨ihf, iht⟩ := ih h1ts h2ts
    constructor
    · cases hc : isAlnum c with
      | true =>
        rw [show replaceRunsAux false (c :: ts) = c :: replaceRunsAux false ts by
          simp [replaceRunsAux, hc], ihf]
      | false =>
        have hdash : c = '-' := by
          rcases h1 c (List.mem_cons_self c ts) with h | h
          · rw [hc] at h; exact Bool.noConfusion h
          · exact h
        rw [show replaceRunsAux false (c :: ts) = '-' :: replaceRunsAux true ts by
          simp [replaceRunsAux, hc]]
        rw [iht ?_, hdash]
        intro x hx
        have hrel := (List.chain'_cons'.mp h2).1 x (Option.mem_def.mpr hx)
        rcases hrel with h | h
        · rw [hc] at h; exact Bool.noConfusion h
        · exact h
    · intro hhead
      have hc : isAlnum c = true := hhead c rfl
      rw [show replaceRunsAux true (c :: ts) = c :: replaceRunsAux false ts by
        simp [replaceRunsAux, hc], ihf]

/-- Lowercasing is the identity on normal-form slugs. -/
theorem map_jsToLower_fixed (t : List Char)
    (h1 : ∀ c ∈ t, isAlnum c = true ∨ c = '-') : t.map jsToLower = t := by
  induction t with
  | nil => rfl
  | cons c ts ih =>
    rw [List.map_cons, jsToLower_fixed c (h1 c (List.mem_cons_self c ts)),
      ih (fun d hd => h1 d (List.mem_cons_of_mem c hd))]

/-- The head of `dropLast` is the head of the list. -/
theorem dropLast_head?_eq (l : List Char) (x : Char)
    (h : l.dropLast.head? = some x) : l.head? = some x := by
  cases l with
  | nil => simp at h
  | cons c t =>
    cases t with
    | nil => simp at h
    | cons d ds =>
      rw [List.dropLast_cons₂, List.head?_cons] at h
      rw [List.head?_cons]
      exact h

/-- `dropLast` preserves chains. -/
theorem chain'_dropLast {R : Char → Char → Prop} {l : List Char}
    (h : List.Chain' R l) : List.Chain' R l.dropLast := by
  cases hl : l.getLast? with
  | none =>
    rw [List.getLast?_eq_none_iff] at hl
    subst hl
    simp
  | some a =>
    have heq := List.dropLast_append_getLast? a (Option.mem_def.mpr hl)
    rw [← heq] at h
    exact (List.chain'_append.mp h).1

/-- Characters survive `stripEdgeHyphens`. -/
theorem stripEdgeHyphens_mem (r : List Char) :
    ∀ c ∈ stripEdgeHyphens r, c ∈ r := by
  intro c hc
  unfold stripEdgeHyphens stripTrailHyphen at hc
  have hc1 : c ∈ stripLeadHyphen r := by
    split at hc
    · exact (List.dropLast_sublist _).subset hc
    · exact hc
  cases r with
  | nil => simp [stripLeadHyphen] at hc1
  | cons d t =>
    by_cases hd : d = '-'
    · rw [show stripLeadHyphen (d :: t) = t by simp [stripLeadHyphen, hd]] at hc1
      exact List.mem_cons_of_mem d hc1
    · rwa [show stripLeadHyphen (d :: t) = d :: t by
        simp [stripLeadHyphen, hd]] at hc1

/-- `stripLeadHyphen` preserves chains. -/
theorem chain'_stripLeadHyphen {r : List Char}
    (h : List.Chain' slugRel r) : List.Chain' slugRel (stripLeadHyphen r) := by
  cases r with
  | nil => simp [stripLeadHyphen]
  | cons d t =>
    by_cases hd : d = '-'
    · rw [show stripLeadHyphen (d :: t) = t by simp [stripLeadHyphen, hd]]
      exact h.tail
    · rwa [show stripLeadHyphen (d :: t) = d :: t by simp [stripLeadHyphen, hd]]

/-- `stripEdgeHyphens` preserves chains. -/
theorem chain'_stripEdgeHyphens {r : List Char}
    (h : List.Chain' slugRel r) :
    List.Chain' slugRel (stripEdgeHyphens r) := by
  unfold stripEdgeHyphens stripTrailHyphen
  split
  · exact chain'_dropLast (chain'_stripLeadHyphen h)
  · exact chain'_stripLeadHyphen h

/-- The first character of a stripped normal-form slug is alphanumeric. -/
theorem stripEdgeHyphens_head_alnum (r : List Char)
    (hmem : ∀ c ∈ r, isAlnum c = true ∨ c = '-')
    (hch : List.Chain' slugRel r) :
    ∀ x, (stripEdgeHyphens r).head? = some x → isAlnum x = true := by
  intro x hx
  unfold stripEdgeHyphens stripTrailHyphen at hx
  have hx' : (stripLeadHyphen r).head? = some x := by
    split at hx
    · exact dropLast_head?_eq _ x hx
    · exact hx
  cases r with
  | nil => simp [stripLeadHyphen] at hx'
  | cons c tr =>
    by_cases hc : c = '-'
    · subst hc
      rw [show stripLeadHyphen ('-' :: tr) = tr by simp [stripLeadHyphen]] at hx'
      have hrel := (List.chain'_cons'.mp hch).1 x (Option.mem_def.mpr hx')
      rcases hrel with h | h
      · rw [isAlnum_hyphen] at h; exact Bool.noConfusion h
      · exact h
    · rw [show stripLeadHyphen (c :: tr) = c :: tr by
        simp [stripLeadHyphen, hc]] at hx'
      simp only [List.head?_cons, Option.some.injEq] at hx'
      subst hx'
      rcases hmem c (List.mem_cons_self c tr) with h | h
      · exact h
      · exact absurd h hc

/-- The last character of a stripped normal-form slug is not a hyphen. -/
theorem stripEdgeHyphens_last_ne (r : List Char)
    (hch : List.Chain' slugRel r) :
    ∀ x, (stripEdgeHyphens r).getLast? = some x → x ≠ '-' := by
  intro x hx hxd
  subst hxd
  have hchm : List.Chain' slugRel (stripLeadHyphen r) := chain'_stripLeadHyphen hch
  unfold stripEdgeHyphens stripTrailHyphen at hx
  split at hx
  · next hcon =>
    have heq := List.dropLast_append_getLast? '-' (Option.mem_def.mpr hcon)
    have hch2 : List.Chain' slugRel ((stripLeadHyphen r).dropLast ++ ['-']) := by
      rw [heq]; exact hchm
    have h3 := (List.chain'_append.mp hch2).2.2 '-' (Option.mem_def.mpr hx)
      '-' (by simp)
    rcases h3 with h | h <;> (rw [isAlnum_hyphen] at h; exact Bool.noConfusion h)
  · next hcon => exact hcon hx

/-- `stripEdgeHyphens` is the identity when neither end is a hyphen. -/
theorem stripEdgeHyphens_fixed (t : List Char)
    (h1 : ∀ x, t.head? = some x → x ≠ '-')
    (h2 : ∀ x, t.getLast? = some x → x ≠ '-') : stripEdgeHyphens t = t := by
  unfold stripEdgeHyphens
  have hlead : stripLeadHyphen t = t := by
    cases t with
    | nil => rfl
    | cons c ts => simp [stripLeadHyphen, h1 c rfl]
  rw [hlead]
  unfold stripTrailHyphen
  rw [if_neg]
  intro hcon
  exact h2 '-' hcon rfl

/-- The output of `slugifyL` is in slug normal form: every character is a
lowercase-stable alphanumeric or hyphen, no two adjacent characters are both
non-alphanumeric, the first character is alphanumeric and the last is not
a hyphen. -/
theorem slugifyL_props (l : List Char) :
    (∀ c ∈ slugifyL l, isAlnum c = true ∨ c = '-') ∧
    List.Chain' slugRel (slugifyL l) ∧
    (∀ x, (slugifyL l).head? = some x → isAlnum x = true) ∧
    (∀ x, (slugifyL l).getLast? = some x → x ≠ '-') := by
  have hmem : ∀ c ∈ replaceRuns (l.map jsToLower), isAlnum c = true ∨ c = '-' :=
    replaceRunsAux_mem false _
  have hch : List.Chain' slugRel (replaceRuns (l.map jsToLower)) :=
    replaceRunsAux_chain' false _
  refine ⟨?_, ?_, ?_, ?_⟩
  · exact fun c hc => hmem c (stripEdgeHyphens_mem _ c hc)
  · exact chain'_stripEdgeHyphens hch
  · exact stripEdgeHyphens_head_alnum _ hmem hch
  · exact stripEdgeHyphens_last_ne _ hch

/-- `slugifyL` is idempotent. -/
theorem slugifyL_idem (l : List Char) : slugifyL (slugifyL l) = slugifyL l := by
  obtain ⟨p1, p2, p3, p4⟩ := slugifyL_props l
  show stripEdgeHyphens (replaceRuns ((slugifyL l).map jsToLower)) = slugifyL l
  rw [map_jsToLower_fixed _ p1]
  rw [show replaceRuns (slugifyL l) = slugifyL l from
    (replaceRunsAux_fixed _ p1 p2).1]
  refine stripEdgeHyphens_fixed _ (fun x hx hd => ?_) p4
  subst hd
  have := p3 '-' hx
  rw [isAlnum_hyphen] at this
  exact Bool.noConfusion this

/-- C5: the slug transformation shared by `Tag.js`, `Category.js` and
`Post.js` (lowercase, replace each run of non-alphanumeric characters with a
single hyphen, strip one leading and one trailing hyphen) is idempotent:
`slugify(slugify(s)) == slugify(s)` for every string `s`. -/
theorem c5_slugify_idempotent (s : String) : slugify (slugify s) = slugify s := by
  show String.mk (slugifyL (String.mk (slugifyL s.toList)).toList)
    = String.mk (slugifyL s.toList)
  rw [show (String.mk (slugifyL s.toList)).toList = slugifyL s.toList from rfl]
  rw [slugifyL_idem]
